import Mathlib

/-!
# Verification of `src/tools/bmp_to_header.py`

A shallow embedding of the byte-array emitter: the script reads the bytes
of a file and writes a C++ header containing one hex literal per byte, 16 per
line, plus a length constant.  The Python `f.write` calls are modelled as a
list of string tokens in emission order; the file content is their
concatenation.
-/

set_option maxHeartbeats 1000000
set_option maxRecDepth 100000

namespace BmpToHeader

/-- Models the Python format `%02x` for a byte value `b < 256`: exactly two
lowercase hexadecimal digits, zero padded (`Nat.digitChar` yields `0`-`9`
then lowercase `a`-`f`, matching `%x`). -/
def pyHex02 (b : Nat) : String :=
  String.mk [Nat.digitChar (b / 16), Nat.digitChar (b % 16)]

/-- The token written for one byte: `0x` followed by the `%02x` form. -/
def pyHex0x (b : Nat) : String := "0x" ++ pyHex02 b

/-- The writes of one iteration of the inner loop of `bmp_to_header` at
global position `p` (`p = i + j` in the source): the hex literal for
`data[p]`, then `", "` exactly when `i + j < len(data) - 1`. -/
def posWrites (data : List Nat) (p : Nat) : List String :=
  [pyHex0x (data.getD p 0)] ++ (if p < data.length - 1 then [", "] else [])

/-- The writes of one iteration of the outer loop
(`for i in range(0, len(data), 16)`): the `"    "` indent, then
`chunk_size = min(16, len(data) - i)` entries with separators, then the
`"\n"` line terminator. -/
def rowWrites (data : List Nat) (i : Nat) : List String :=
  "    " :: ((List.range (min 16 (data.length - i))).flatMap
    (fun j => posWrites data (i + j))) ++ ["\n"]

/-- The index list produced by the Python call `range(0, n, 16)`. -/
def chunkStarts (n : Nat) : List Nat :=
  (List.range ((n + 15) / 16)).map (· * 16)

/-- All writes of the byte-array body (the outer loop of `bmp_to_header`). -/
def bodyWrites (data : List Nat) : List String :=
  (chunkStarts data.length).flatMap (rowWrites data)

/-- Sequential concatenation of a list of written tokens: the text that the
successive `f.write` calls leave in the file. -/
def concatStrs : List String → String
  | [] => ""
  | s :: l => s ++ concatStrs l

/-- The text of the array body. -/
def bodyString (data : List Nat) : String := concatStrs (bodyWrites data)

/-- The physical lines of the array body: one outer-loop iteration emits
exactly one line (each ends with its `"\n"`). -/
def bodyLines (data : List Nat) : List String :=
  (chunkStarts data.length).map (fun i => concatStrs (rowWrites data i))

/-- Every write of `bmp_to_header` on the output file, in order. -/
def headerWrites (input_file var_name : String) (data : List Nat) : List String :=
  ("// Generated from " ++ input_file ++ "\n") ::
  "#pragma once\n\n" ::
  "#include <cstdint>\n\n" ::
  ("inline constexpr unsigned char " ++ var_name ++ "_data[] = \x7b\n") ::
  (bodyWrites data ++
    ["\x7d;\n\n",
     "inline constexpr unsigned int " ++ var_name ++ "_len = sizeof(" ++
       var_name ++ "_data);\n"])

/-- The full text written to the output file by `bmp_to_header`. -/
def headerOutput (input_file var_name : String) (data : List Nat) : String :=
  concatStrs (headerWrites input_file var_name data)

/-- `bmp_to_header` itself: the input file is opened and fully read before
the output path is opened, so a read failure (`none`) yields no output file
at all; on a successful read the output file holds `headerOutput`. -/
def bmp_to_header (readResult : Option (List Nat))
    (input_file var_name : String) : Option String :=
  match readResult with
  | none => none
  | some data => some (headerOutput input_file var_name data)

/-- Observable outcome of one process run: lines printed to stdout, the
exit status, and the output file written (path and content), if any. -/
structure MainResult where
  stdout : List String
  exitCode : Nat
  written : Option (String × String)
  deriving DecidableEq

/-- The `__main__` block: `argv` is the full `sys.argv` (program name
first, so exactly 3 positional arguments means `argv.length = 4`);
`readFile` models the filesystem read, `none` standing for an `IOError`,
which the script leaves unhandled (Python then exits with status 1 and
prints nothing to stdout). -/
def mainRun (argv : List String) (readFile : String → Option (List Nat)) :
    MainResult :=
  if argv.length ≠ 4 then
    ⟨["Usage: " ++ argv.getD 0 "" ++ " <input.bmp> <output.h> <var_name>\n"],
     1, none⟩
  else
    match readFile (argv.getD 1 "") with
    | none => ⟨[], 1, none⟩
    | some data =>
        ⟨["Generated " ++ argv.getD 2 "" ++ "\n"], 0,
         some (argv.getD 2 "",
               headerOutput (argv.getD 1 "") (argv.getD 3 "") data)⟩

/-- Recognises the hex-literal tokens among the written tokens: those
beginning with the two characters `0x`. -/
def isHexTok (s : String) : Bool :=
  match s.data with
  | '0' :: 'x' :: _ => true
  | _ => false

/-- Value of one lowercase hex digit. -/
def hexVal (c : Char) : Nat :=
  if c.isDigit then c.toNat - '0'.toNat
  else c.toNat - 'a'.toNat + 10

/-- Decodes a `0x…` hex-literal token back to the number it denotes. -/
def decodeHexTok (s : String) : Nat :=
  (s.data.drop 2).foldl (fun acc c => 16 * acc + hexVal c) 0

/-- For each hex-literal token of the list, the token written immediately
after it (`""` if none follows). -/
def followers : List String → List String
  | [] => []
  | s :: l => if isHexTok s then l.headD "" :: followers l else followers l

/-! ## Basic token facts -/

lemma isHexTok_pyHex0x (b : Nat) : isHexTok (pyHex0x b) = true := rfl

lemma isHexTok_indent : isHexTok "    " = false := rfl

lemma isHexTok_sep : isHexTok ", " = false := rfl

lemma isHexTok_newline : isHexTok "\n" = false := rfl

lemma hexVal_digitChar : ∀ d, d < 16 → hexVal (Nat.digitChar d) = d := by decide

lemma decode_pyHex0x (b : Nat) (h : b < 256) : decodeHexTok (pyHex0x b) = b := by
  have h1 : hexVal (Nat.digitChar (b / 16)) = b / 16 := hexVal_digitChar _ (by omega)
  have h2 : hexVal (Nat.digitChar (b % 16)) = b % 16 := hexVal_digitChar _ (by omega)
  simp only [decodeHexTok, pyHex0x, pyHex02, String.data_append, List.foldl]
  show 16 * (16 * 0 + hexVal (Nat.digitChar (b / 16))) + hexVal (Nat.digitChar (b % 16)) = b
  rw [h1, h2]
  omega

/-! ## Index shifting: dropping the first 16 bytes shifts all rows by one -/

lemma getD_drop (l : List Nat) (a i : Nat) : (l.drop a).getD i 0 = l.getD (a + i) 0 := by
  induction l generalizing a with
  | nil => simp
  | cons x t ih =>
    cases a with
    | zero => simp
    | succ a => simp only [List.drop_succ_cons, ih a, Nat.succ_add, List.getD_cons_succ]

lemma posWrites_shift (data : List Nat) (p : Nat) :
    posWrites data (16 + p) = posWrites (data.drop 16) p := by
  simp only [posWrites, getD_drop, List.length_drop]
  by_cases hc : 16 + p < data.length - 1
  · rw [if_pos hc, if_pos (by omega)]
  · rw [if_neg hc, if_neg (by omega)]

lemma rowWrites_shift (data : List Nat) (i : Nat) :
    rowWrites data (16 + i) = rowWrites (data.drop 16) i := by
  have hlen : data.length - (16 + i) = data.length - 16 - i := by omega
  have harg : ∀ j : Nat, posWrites data (16 + i + j) = posWrites (data.drop 16) (i + j) := by
    intro j
    have h2 : 16 + i + j = 16 + (i + j) := by omega
    rw [h2, posWrites_shift]
  simp only [rowWrites, List.length_drop, hlen, harg]

lemma chunkStarts_succ (n : Nat) (h : n ≠ 0) :
    chunkStarts n = 0 :: (chunkStarts (n - 16)).map (16 + ·) := by
  have hq : (n + 15) / 16 = (n - 16 + 15) / 16 + 1 := by omega
  simp only [chunkStarts, hq, List.range_succ_eq_map, List.map_cons, List.map_map,
    Nat.zero_mul]
  congr 1
  apply List.map_congr_left
  intro k _
  simp only [Function.comp_apply]
  omega

lemma bodyWrites_cons (data : List Nat) (h : data ≠ []) :
    bodyWrites data = rowWrites data 0 ++ bodyWrites (data.drop 16) := by
  have hn : data.length ≠ 0 := by simpa using h
  simp only [bodyWrites, chunkStarts_succ data.length hn, List.flatMap_cons,
    List.flatMap_map, List.length_drop]
  congr 1
  apply List.flatMap_congr
  intro a _
  exact rowWrites_shift data a

lemma bodyLines_cons (data : List Nat) (h : data ≠ []) :
    bodyLines data = concatStrs (rowWrites data 0) :: bodyLines (data.drop 16) := by
  have hn : data.length ≠ 0 := by simpa using h
  simp only [bodyLines, chunkStarts_succ data.length hn, List.map_cons,
    List.map_map, List.length_drop]
  congr 1
  apply List.map_congr_left
  intro a _
  simp only [Function.comp_apply]
  rw [rowWrites_shift data a]

/-! ## Extracting the hex literals from the written tokens -/

lemma filter_posWrites (data : List Nat) (p : Nat) :
    (posWrites data p).filter isHexTok = [pyHex0x (data.getD p 0)] := by
  simp only [posWrites]
  by_cases hc : p < data.length - 1
  · rw [if_pos hc]
    simp [List.filter, isHexTok_pyHex0x, isHexTok_sep]
  · rw [if_neg hc]
    simp [List.filter, isHexTok_pyHex0x]

lemma filter_rowWrites (data : List Nat) (i : Nat) :
    (rowWrites data i).filter isHexTok
      = (List.range (min 16 (data.length - i))).map (fun j => pyHex0x (data.getD (i + j) 0)) := by
  simp only [rowWrites, List.filter_cons, isHexTok_indent, List.filter_append,
    List.filter_flatMap, filter_posWrites]
  simp [List.filter, isHexTok_newline, List.map_eq_flatMap]

lemma range_map_getD (l : List Nat) : ∀ c, c ≤ l.length →
    (List.range c).map (fun j => l.getD j 0) = l.take c := by
  induction l with
  | nil =>
    intro c hc
    have : c = 0 := by simpa using hc
    subst this
    simp
  | cons x t ih =>
    intro c hc
    cases c with
    | zero => simp
    | succ c =>
      rw [List.range_succ_eq_map]
      simp only [List.map_cons, List.getD_cons_zero, List.map_map, List.take_succ_cons]
      congr 1
      have h2 := ih c (by simpa using hc)
      rw [← h2]
      apply List.map_congr_left
      intro j _
      simp [Function.comp]

lemma take_min16 (l : List Nat) : l.take (min 16 l.length) = l.take 16 := by
  rcases Nat.le_total l.length 16 with h | h
  · rw [Nat.min_eq_right h, List.take_length, List.take_of_length_le h]
  · rw [Nat.min_eq_left h]

/-- The hex-literal tokens of the array body are exactly the encodings of
the input bytes, one per byte, in the original order. -/
lemma filter_bodyWrites (data : List Nat) :
    (bodyWrites data).filter isHexTok = data.map pyHex0x := by
  by_cases h : data = []
  · subst h; rfl
  · rw [bodyWrites_cons data h, List.filter_append, filter_rowWrites,
      filter_bodyWrites (data.drop 16)]
    have hz : ∀ j : Nat, pyHex0x (data.getD (0 + j) 0) = pyHex0x (data.getD j 0) := by
      intro j; rw [Nat.zero_add]
    simp only [Nat.sub_zero, hz]
    have hc : min 16 data.length ≤ data.length := by omega
    have h2 : (List.range (min 16 data.length)).map (fun j => pyHex0x (data.getD j 0))
        = (data.take (min 16 data.length)).map pyHex0x := by
      rw [← range_map_getD data (min 16 data.length) hc, List.map_map]
      apply List.map_congr_left
      intro j _
      simp [Function.comp]
    rw [h2, take_min16, ← List.map_append, List.take_append_drop]
termination_by data.length
decreasing_by
  have hp : 0 < data.length := List.length_pos.mpr h
  simp only [List.length_drop]
  omega

/-! ## The token following each hex literal -/

lemma followers_nil : followers [] = [] := rfl

lemma followers_cons (s : String) (l : List String) :
    followers (s :: l) = if isHexTok s then l.headD "" :: followers l else followers l := rfl

lemma followers_cons_nonhex (s : String) (l : List String) (h : isHexTok s = false) :
    followers (s :: l) = followers l := by
  rw [followers_cons, h]
  simp

lemma followers_flatMap_comma (data : List Nat) (ps : List Nat)
    (hp : ∀ p ∈ ps, p < data.length - 1) (rest : List String) :
    followers ((ps.flatMap (posWrites data)) ++ rest)
      = List.replicate ps.length ", " ++ followers rest := by
  induction ps with
  | nil => simp
  | cons p ps ih =>
    have hc : p < data.length - 1 := hp p (by simp)
    simp only [List.flatMap_cons, posWrites, if_pos hc, List.append_assoc,
      List.cons_append, List.nil_append, List.singleton_append]
    rw [followers_cons, isHexTok_pyHex0x]
    simp only [if_true, List.headD_cons]
    rw [followers_cons_nonhex _ _ isHexTok_sep]
    rw [ih (by intro q hq; exact hp q (by simp [hq]))]
    simp [List.replicate_succ]

/-- In the array body, each of the first `len - 1` hex literals is
immediately followed by the token `", "`, and the final hex literal is
immediately followed by the line terminator `"\n"` — no trailing comma. -/
lemma followers_body (data : List Nat) (h : data ≠ []) :
    followers (bodyWrites data) = List.replicate (data.length - 1) ", " ++ ["\n"] := by
  have hn : 0 < data.length := List.length_pos.mpr h
  rw [bodyWrites_cons data h]
  by_cases h16 : data.length ≤ 16
  · have hd : data.drop 16 = [] := List.drop_eq_nil_of_le h16
    rw [hd]
    have hb : bodyWrites [] = [] := rfl
    rw [hb, List.append_nil]
    simp only [rowWrites, Nat.sub_zero, Nat.zero_add]
    rw [Nat.min_eq_right h16]
    obtain ⟨m, hm⟩ : ∃ m, data.length = m + 1 := ⟨data.length - 1, by omega⟩
    rw [hm, List.range_succ, List.flatMap_append, List.flatMap_singleton]
    simp only [List.cons_append, List.append_assoc]
    rw [followers_cons_nonhex _ _ isHexTok_indent]
    rw [followers_flatMap_comma data (List.range m)
      (by intro p hp; rw [List.mem_range] at hp; omega)]
    rw [posWrites, if_neg (by omega : ¬ (m < data.length - 1))]
    simp only [List.append_nil, List.nil_append, List.singleton_append,
      List.cons_append, List.length_range]
    rw [followers_cons, isHexTok_pyHex0x]
    simp only [if_true, List.headD_cons, List.nil_append]
    rw [followers_cons_nonhex _ _ isHexTok_newline, followers_nil]
    simp [hm]
  · have hd : data.drop 16 ≠ [] := by
      intro hcon
      have h2 := List.drop_eq_nil_iff.mp hcon
      omega
    simp only [rowWrites, Nat.sub_zero, Nat.zero_add]
    rw [Nat.min_eq_left (by omega : 16 ≤ data.length)]
    simp only [List.cons_append, List.append_assoc, List.singleton_append]
    rw [followers_cons_nonhex _ _ isHexTok_indent]
    rw [followers_flatMap_comma data (List.range 16)
      (by intro p hp; rw [List.mem_range] at hp; omega)]
    rw [followers_cons_nonhex _ _ isHexTok_newline]
    simp only [List.nil_append, List.length_range]
    rw [followers_body (data.drop 16) hd]
    simp only [List.length_drop, List.length_range]
    rw [← List.append_assoc, ← List.replicate_add]
    have h3 : 16 + (data.length - 16 - 1) = data.length - 1 := by omega
    rw [h3]
termination_by data.length
decreasing_by
  have _hp : 0 < data.length := List.length_pos.mpr h
  simp only [List.length_drop]
  omega

/-! ## Concatenation of the written tokens -/

lemma concatStrs_nil : concatStrs [] = "" := rfl

lemma concatStrs_cons (s : String) (l : List String) :
    concatStrs (s :: l) = s ++ concatStrs l := rfl

lemma concatStrs_append (a b : List String) :
    concatStrs (a ++ b) = concatStrs a ++ concatStrs b := by
  induction a with
  | nil => simp [concatStrs]
  | cons s t ih =>
    simp only [List.cons_append, concatStrs_cons, ih, String.append_assoc]

/-- The full output text splits as prologue, array body, epilogue, with the
caller-supplied input path and identifier inserted verbatim. -/
lemma headerOutput_split (input_file var_name : String) (data : List Nat) :
    headerOutput input_file var_name data
      = ("// Generated from " ++ input_file ++ "\n" ++ "#pragma once\n\n"
          ++ "#include <cstdint>\n\n"
          ++ "inline constexpr unsigned char " ++ var_name ++ "_data[] = \x7b\n")
        ++ bodyString data
        ++ ("\x7d;\n\n" ++ "inline constexpr unsigned int " ++ var_name
          ++ "_len = sizeof(" ++ var_name ++ "_data);\n") := by
  simp only [headerOutput, headerWrites, concatStrs_cons, concatStrs_append,
    concatStrs_cons, concatStrs_nil, bodyString, String.append_assoc,
    String.append_empty]

/-! ## Line structure of the body -/

lemma bodyLines_length (data : List Nat) :
    (bodyLines data).length = (data.length + 15) / 16 := by
  simp [bodyLines, chunkStarts]

/-- When at least one more row follows, the tokens of the first row end with the
pair `", "`, `"\n"`. -/
lemma row0_tokens_full (data : List Nat) (h17 : 17 ≤ data.length) :
    rowWrites data 0
      = ("    " :: ((List.range 15).flatMap (posWrites data)
          ++ [pyHex0x (data.getD 15 0)])) ++ [", ", "\n"] := by
  have hpos : posWrites data 15 = [pyHex0x (data.getD 15 0), ", "] := by
    simp only [posWrites]
    rw [if_pos (by omega : 15 < data.length - 1)]
    rfl
  simp only [rowWrites, Nat.sub_zero, Nat.zero_add]
  rw [Nat.min_eq_left (by omega : 16 ≤ data.length)]
  have hr : List.range 16 = List.range 15 ++ [15] := by decide
  rw [hr, List.flatMap_append, List.flatMap_singleton, hpos]
  simp [List.append_assoc, List.cons_append]

/-- Every line of the array body except the last ends with a comma and a
trailing space immediately before its newline. -/
lemma line_ends_sep (data : List Nat) : ∀ k, k + 1 < (bodyLines data).length →
    ∃ s, (bodyLines data).getD k "" = s ++ ", \n" := by
  intro k hk
  have hne : data ≠ [] := by
    intro hcon
    subst hcon
    simp [bodyLines, chunkStarts] at hk
  rw [bodyLines_cons data hne] at hk ⊢
  cases k with
  | zero =>
    have h17 : 17 ≤ data.length := by
      have hlen : 0 < (bodyLines (data.drop 16)).length := by
        simpa [List.length_cons] using hk
      rw [bodyLines_length, List.length_drop] at hlen
      omega
    simp only [List.getD_cons_zero]
    refine ⟨concatStrs ("    " :: ((List.range 15).flatMap (posWrites data)
      ++ [pyHex0x (data.getD 15 0)])), ?_⟩
    rw [row0_tokens_full data h17, concatStrs_append]
    rfl
  | succ k =>
    simp only [List.getD_cons_succ]
    apply line_ends_sep (data.drop 16) k
    simpa [List.length_cons] using hk
termination_by data.length
decreasing_by
  have _hp : 0 < data.length := List.length_pos.mpr hne
  simp only [List.length_drop]
  omega

/-! ## Remaining helper facts -/

lemma row_hexCount_le (data : List Nat) (i : Nat) :
    ((rowWrites data i).filter isHexTok).length ≤ 16 := by
  rw [filter_rowWrites, List.length_map, List.length_range]
  exact Nat.min_le_left _ _

lemma pyHex_shape : ∀ b : Nat, b < 256 →
    (pyHex0x b).data.length = 4 ∧ (pyHex0x b).data.take 2 = ['0', 'x']
      ∧ ∀ c ∈ (pyHex0x b).data.drop 2, c ∈ "0123456789abcdef".data := by
  decide

/-! ## The claims -/

/-- Claim C1: for every byte sequence read from the input file, the
generated array body contains exactly one hex literal per input byte, in
the original order, so decoding the hex literals in order (stripping the
formatting tokens) reconstructs exactly the input bytes. -/
theorem claim_C1_roundtrip (data : List Nat) (h : ∀ b ∈ data, b < 256) :
    ((bodyWrites data).filter isHexTok).map decodeHexTok = data := by
  rw [filter_bodyWrites, List.map_map]
  have h2 : ∀ b ∈ data, (decodeHexTok ∘ pyHex0x) b = id b := by
    intro b hb
    simp only [Function.comp_apply, id]
    exact decode_pyHex0x b (h b hb)
  rw [List.map_congr_left h2, List.map_id]

theorem claim_C1_roundtrip_witness :
    (∀ b ∈ ([0, 65, 255] : List Nat), b < 256)
      ∧ ((bodyWrites [0, 65, 255]).filter isHexTok).map decodeHexTok = [0, 65, 255] :=
  ⟨by decide, claim_C1_roundtrip [0, 65, 255] (by decide)⟩

/-- Claim C2: the emitted length constant equals the number of input bytes
(the generated `sizeof(<id>_data)` is the element count of an
`unsigned char` array, i.e. the number of emitted hex entries, proved here
to equal `len(B)` — including `len(B) = 0`), and it is written as the
single line `inline constexpr unsigned int <id>_len = sizeof(<id>_data);`
at the end of the output. -/
theorem claim_C2_length_constant (input_file var_name : String) (data : List Nat) :
    (∃ s, headerOutput input_file var_name data
        = s ++ ("inline constexpr unsigned int " ++ var_name ++ "_len = sizeof("
            ++ var_name ++ "_data);\n"))
      ∧ ((bodyWrites data).filter isHexTok).length = data.length := by
  constructor
  · refine ⟨("// Generated from " ++ input_file ++ "\n" ++ "#pragma once\n\n"
      ++ "#include <cstdint>\n\n"
      ++ "inline constexpr unsigned char " ++ var_name ++ "_data[] = \x7b\n")
      ++ bodyString data ++ "\x7d;\n\n", ?_⟩
    rw [headerOutput_split]
    simp only [String.append_assoc]
  · rw [filter_bodyWrites, List.length_map]

/-- Claim C3: in the generated array body a comma token follows every
emitted value except the very last value of the entire sequence (the
follower of each of the first `len - 1` hex literals is `", "`, and the
follower of the final one is the newline, not a comma). -/
theorem claim_C3_trailing_comma (data : List Nat) (h : data ≠ []) :
    followers (bodyWrites data) = List.replicate (data.length - 1) ", " ++ ["\n"] :=
  followers_body data h

theorem claim_C3_trailing_comma_witness :
    followers (bodyWrites [1, 2]) =
      List.replicate (([1, 2] : List Nat).length - 1) ", " ++ ["\n"] :=
  claim_C3_trailing_comma [1, 2] (by decide)

/-- Claim C4: emitted values are grouped into lines of at most 16 values
each; for the 17-byte input `0x00..0x10` the body has exactly two lines,
the first with 16 entries (its last entry followed by the comma separator)
and the second with the single entry `0x10` and no trailing comma. -/
theorem claim_C4_line_grouping :
    (∀ (data : List Nat) (i : Nat), ((rowWrites data i).filter isHexTok).length ≤ 16)
      ∧ bodyLines (List.range 17)
        = ["    0x00, 0x01, 0x02, 0x03, 0x04, 0x05, 0x06, 0x07, 0x08, 0x09, 0x0a, 0x0b, 0x0c, 0x0d, 0x0e, 0x0f, \n",
           "    0x10\n"] := by
  exact ⟨row_hexCount_le, by decide⟩

/-- Claim C5 (amended): each input byte is emitted as a two-digit lowercase
hexadecimal literal prefixed with `0x`, one per byte in order; for input
bytes `[0x00, 0x41, 0xFF]` the array body is the single line
`    0x00, 0x41, 0xff` — the three entries preceded by the four-space
indent that the code writes at the start of every line — followed by a
newline, with no trailing comma. -/
theorem claim_C5_hex_format :
    ((∀ data : List Nat, (bodyWrites data).filter isHexTok = data.map pyHex0x)
      ∧ (∀ b : Nat, b < 256 →
          (pyHex0x b).data.length = 4 ∧ (pyHex0x b).data.take 2 = ['0', 'x']
            ∧ ∀ c ∈ (pyHex0x b).data.drop 2, c ∈ "0123456789abcdef".data))
      ∧ bodyString [0, 65, 255] = "    0x00, 0x41, 0xff\n" :=
  ⟨⟨filter_bodyWrites, pyHex_shape⟩, by decide⟩

theorem claim_C5_hex_format_witness :
    (pyHex0x 255).data.length = 4 ∧ (pyHex0x 255).data.take 2 = ['0', 'x'] :=
  ⟨(claim_C5_hex_format.1.2 255 (by decide)).1, (claim_C5_hex_format.1.2 255 (by decide)).2.1⟩

/-- Claim C5 counterexample: the literal scenario of the claim is false on the
code — the body line for `[0x00, 0x41, 0xFF]` is not `0x00, 0x41, 0xff\n`,
because every body line starts with a four-space indent. -/
theorem claim_C5_counterexample :
    bodyString [0, 65, 255] ≠ "0x00, 0x41, 0xff\n" := by
  decide

/-- Claim C6: for an empty input the conversion does not fail — the
per-line loop runs zero times (no body tokens at all), the array
declaration is emitted with no entries (`... = \x7b` newline `\x7d;`), and
the length constant counts zero entries. -/
theorem claim_C6_empty_input :
    bodyWrites ([] : List Nat) = []
      ∧ headerOutput "in.bmp" "img" []
        = "// Generated from in.bmp\n#pragma once\n\n#include <cstdint>\n\ninline constexpr unsigned char img_data[] = \x7b\n\x7d;\n\ninline constexpr unsigned int img_len = sizeof(img_data);\n"
      ∧ ((bodyWrites ([] : List Nat)).filter isHexTok).length = 0 :=
  ⟨rfl, by decide, rfl⟩

/-- Claim C7: invoked with any positional-argument count other than 3
(i.e. `len(sys.argv) ≠ 4`), the program prints the usage message
`Usage: <program_name> <input.bmp> <output.h> <var_name>` to standard
output, exits with status 1, and writes no output file. -/
theorem claim_C7_usage (argv : List String) (reader : String → Option (List Nat))
    (h : argv.length ≠ 4) :
    mainRun argv reader
      = ⟨["Usage: " ++ argv.getD 0 "" ++ " <input.bmp> <output.h> <var_name>\n"],
         1, none⟩ := by
  rw [mainRun, if_pos h]

theorem claim_C7_usage_witness :
    mainRun ["prog"] (fun _ => none)
      = ⟨["Usage: prog <input.bmp> <output.h> <var_name>\n"], 1, none⟩ := by
  rw [claim_C7_usage ["prog"] (fun _ => none) (by decide)]
  rfl

/-- Claim C8: the output of every successful conversion is exactly the prologue
`// Generated from <input_path>`, `#pragma once`, blank line,
`#include <cstdint>`, blank line, and the array opening with the
caller-supplied path and identifier inserted verbatim, then the array
body, then `\x7d;` followed by a blank line and the length-constant line. -/
theorem claim_C8_layout (input_file var_name : String) (data : List Nat) :
    headerOutput input_file var_name data
      = ("// Generated from " ++ input_file ++ "\n" ++ "#pragma once\n\n"
          ++ "#include <cstdint>\n\n"
          ++ "inline constexpr unsigned char " ++ var_name ++ "_data[] = \x7b\n")
        ++ bodyString data
        ++ ("\x7d;\n\n" ++ "inline constexpr unsigned int " ++ var_name
          ++ "_len = sizeof(" ++ var_name ++ "_data);\n") :=
  headerOutput_split input_file var_name data

/-- Claim C9: every non-final value of the sequence is immediately followed
by the two-character token `", "` (comma then space), including the last
value of each non-final line; consequently every line of the array body
except the last ends with `", "` — a comma and a trailing space —
immediately before its newline. -/
theorem claim_C9_separator_space :
    (∀ data : List Nat, data ≠ [] →
        followers (bodyWrites data) = List.replicate (data.length - 1) ", " ++ ["\n"])
      ∧ (∀ (data : List Nat) (k : Nat), k + 1 < (bodyLines data).length →
          ∃ s, (bodyLines data).getD k "" = s ++ ", \n") :=
  ⟨followers_body, line_ends_sep⟩

theorem claim_C9_separator_space_witness :
    ∃ s, (bodyLines (List.range 17)).getD 0 "" = s ++ ", \n" :=
  claim_C9_separator_space.2 (List.range 17) 0 (by decide)

/-- Claim C10: the input file is read in full before the output path is
opened (in the embedding, `bmp_to_header` receives the result of the read and
only produces output text on a successful read, and `mainRun` only records
a written file when the read succeeded); hence an `IOError` while opening
or reading the input leaves the output file untouched. -/
theorem claim_C10_read_before_write :
    (∀ (input_file var_name : String), bmp_to_header none input_file var_name = none)
      ∧ (∀ (argv : List String) (reader : String → Option (List Nat)),
          argv.length = 4 → reader (argv.getD 1 "") = none →
          (mainRun argv reader).written = none ∧ (mainRun argv reader).stdout = []) := by
  constructor
  · intro input_file var_name
    rfl
  · intro argv reader h4 hread
    rw [mainRun, if_neg (by omega), hread]
    exact ⟨rfl, rfl⟩

theorem claim_C10_read_before_write_witness :
    (mainRun ["p", "i", "o", "v"] (fun _ => none)).written = none :=
  (claim_C10_read_before_write.2 ["p", "i", "o", "v"] (fun _ => none) (by decide) rfl).1

end BmpToHeader
